import Mathlib

/-
Verification of the CSS diagnostic engine of the NodeJS.CSS.Refactoring
repository: a shallow embedding of the analyzer (src/analyzers/css-analyzer.ts),
the variable extractor (src/crawler/css-extractor.ts), the database layer
(src/core/database.ts) and the orchestrator (src/core/orchestrator.ts, shipped
here inside src/core/types.ts), together with proofs of the behavioural
properties claimed by the specification.

JavaScript numbers that hold integral scores are modelled as Int, counts as
Nat, wall-clock timestamps as explicit Nat parameters, and strings as Lean
Strings (the relevant inputs are ASCII).  Fallible asynchronous steps are
modelled with Except.
-/

namespace CSSAudit

/-- Error severities, from ErrorSeverity in src/core/types.ts. -/
inductive ErrorSeverity where
  | critical
  | high
  | medium
  | low
deriving DecidableEq, Repr

/-- Error kinds, from CSSErrorType in src/core/types.ts. -/
inductive CSSErrorType where
  | unresolvedVariable
  | unusedVariable
  | duplicateVariable
  | unusedSelector
  | highSpecificity
  | colorContrast
  | missingFocusState
  | parseFailure
deriving DecidableEq, Repr

/-- A CSS diagnostic, from CSSError in src/core/types.ts.  The optional
ErrorLocation is reduced to its only field ever set by the analyzer,
location.selector. -/
structure CSSError where
  id : String
  type : CSSErrorType
  severity : ErrorSeverity
  message : String
  details : String
  locationSelector : Option String := none
  suggestion : Option String := none
deriving DecidableEq, Repr

/-- Health-status band of AnalysisSummary.status in src/core/types.ts. -/
inductive HealthStatus where
  | healthy
  | warning
  | critical
deriving DecidableEq, Repr

/-- The errorsBySeverity record of AnalysisSummary. -/
structure SeverityCounts where
  critical : Nat
  high : Nat
  medium : Nat
  low : Nat
deriving DecidableEq, Repr

/-- Number of errors of a given severity, as computed by the filters in
CSSAnalyzer.calculateSummary (css-analyzer.ts lines 174-179). -/
def countSeverity (errors : List CSSError) (s : ErrorSeverity) : Nat :=
  (errors.filter (fun e => e.severity == s)).length

/-- The severity weight table shared by CSSAnalyzer.calculateSummary and
Database.calculateHealthScore: critical=20, high=10, medium=5, low=2. -/
def severityWeight : ErrorSeverity → Int
  | .critical => 20
  | .high => 10
  | .medium => 5
  | .low => 2

/-- AnalysisSummary, from src/core/types.ts.  errorsByType is the total map
built by iterating Object.values(CSSErrorType). -/
structure AnalysisSummary where
  totalErrors : Nat
  errorsBySeverity : SeverityCounts
  errorsByType : CSSErrorType → Nat
  healthScore : Int
  status : HealthStatus

/-- CSSAnalyzer.calculateSummary (css-analyzer.ts lines 173-206): per-severity
counts, weighted penalty, healthScore = max(0, min(100, 100 - penalty)), and
the status band healthy / warning / critical at thresholds 80 and 50. -/
def calculateSummary (errors : List CSSError) : AnalysisSummary :=
  let errorsBySeverity : SeverityCounts :=
    { critical := countSeverity errors .critical
      high := countSeverity errors .high
      medium := countSeverity errors .medium
      low := countSeverity errors .low }
  let penalty : Int :=
    (errorsBySeverity.critical : Int) * severityWeight .critical
      + (errorsBySeverity.high : Int) * severityWeight .high
      + (errorsBySeverity.medium : Int) * severityWeight .medium
      + (errorsBySeverity.low : Int) * severityWeight .low
  let healthScore : Int := max 0 (min 100 (100 - penalty))
  let status : HealthStatus :=
    if healthScore ≥ 80 then .healthy
    else if healthScore ≥ 50 then .warning
    else .critical
  { totalErrors := errors.length
    errorsBySeverity := errorsBySeverity
    errorsByType := fun t => (errors.filter (fun e => e.type == t)).length
    healthScore := healthScore
    status := status }

/-- Database.calculateHealthScore (database.ts lines 260-277): 100 on an empty
list, otherwise max(0, 100 - Σ weights).  The final Math.round is omitted
because the score is already an integer. -/
def calculateHealthScore (errors : List CSSError) : Int :=
  if errors.length = 0 then 100
  else
    let penalty : Int := errors.foldl (fun acc e => acc + severityWeight e.severity) 0
    max 0 (100 - penalty)

/-- The specification's formulation of the penalty: the sum of the fixed
severity weights over the error list. -/
def penaltySpec (errors : List CSSError) : Int :=
  (errors.map (fun e => severityWeight e.severity)).sum

/-- A throwaway diagnostic of a chosen severity, used to instantiate the
claims' concrete examples. -/
def sampleError (s : ErrorSeverity) : CSSError :=
  { id := "e", type := .parseFailure, severity := s, message := "", details := "" }

/-- Character class of the JavaScript regex fragment [\w-] used by both
extraction patterns in CSSExtractor.extractVariables: ASCII letters, digits,
underscore and hyphen. -/
def isIdentChar (c : Char) : Bool :=
  c.isAlpha || c.isDigit || c = '_' || c = '-'

/-- The whitespace class \s of the JavaScript regexes, restricted to the ASCII
whitespace characters. -/
def isSpaceChar (c : Char) : Bool :=
  c = ' ' || c = '\t' || c = '\n' || c = '\x0d' || c = '\x0b' || c = '\x0c'

/-- One attempt of the declared-variable pattern --([\w-]+)\s*: at the head
of the text: literal "--", a maximal nonempty identifier run, maximal
whitespace, then a colon.  Returns the collected name "--" ++ identifier and
the text after the colon (the regex lastIndex position), as in
CSSExtractor.extractVariables (css-extractor.ts lines 73-77). -/
def tryDeclAt : List Char → Option (String × List Char)
  | '-' :: '-' :: rest =>
      let ident := rest.takeWhile isIdentChar
      if ident.isEmpty then none
      else
        match (rest.dropWhile isIdentChar).dropWhile isSpaceChar with
        | ':' :: rest₂ => some (String.mk ('-' :: '-' :: ident), rest₂)
        | _ => none
  | _ => none

/-- One attempt of the used-variable pattern var\(\s*--([\w-]+) at the head
of the text (css-extractor.ts lines 79-82).  Returns the name and the text
after the identifier run. -/
def tryUseAt : List Char → Option (String × List Char)
  | 'v' :: 'a' :: 'r' :: '(' :: rest =>
      match rest.dropWhile isSpaceChar with
      | '-' :: '-' :: rest₂ =>
          let ident := rest₂.takeWhile isIdentChar
          if ident.isEmpty then none
          else some (String.mk ('-' :: '-' :: ident), rest₂.dropWhile isIdentChar)
      | _ => none
  | _ => none

/-- Global regex scan: repeatedly try a pattern at each position, resuming
after the end of each match, as regex.exec does with the g flag.  The fuel is
initialised with the text length; each step consumes at least one character
so it never runs out. -/
def scanMatches (try_ : List Char → Option (String × List Char)) :
    Nat → List Char → List String
  | 0, _ => []
  | _, [] => []
  | fuel + 1, c :: cs =>
      match try_ (c :: cs) with
      | some (name, rest) => name :: scanMatches try_ fuel rest
      | none => scanMatches try_ fuel cs

/-- First-seen-order deduplication with an already-seen accumulator: the
insertion behaviour of a JavaScript Set. -/
def dedupFirstAux (seen : List String) : List String → List String
  | [] => []
  | x :: xs =>
      if seen.contains x then dedupFirstAux seen xs
      else x :: dedupFirstAux (seen ++ [x]) xs

/-- First-seen-order deduplication, the behaviour of a JavaScript Set
followed by Array.from. -/
def dedupFirst (l : List String) : List String :=
  dedupFirstAux [] l

/-- CSSExtractor.extractVariables (css-extractor.ts lines 69-88): the deduped
lists of declared and used custom-property names, each in first-seen order. -/
def extractVariables (cssText : String) : List String × List String :=
  let cs := cssText.toList
  (dedupFirst (scanMatches tryDeclAt cs.length cs),
   dedupFirst (scanMatches tryUseAt cs.length cs))

/-- String.prototype.trim on a character list (ASCII whitespace). -/
def trimChars (s : List Char) : List Char :=
  ((s.dropWhile isSpaceChar).reverse.dropWhile isSpaceChar).reverse

/-- One attempt of the value pattern name\s*:\s*([^;]+) at the head of the
text.  The two \s* make the captured group equal to the maximal nonempty run
of non-semicolon characters after the colon, so the capture is modelled as
that run (the surrounding whitespace disappears under the later trim). -/
def tryValueAt (name : List Char) (l : List Char) : Option (List Char) :=
  if name.isPrefixOf l then
    match (l.drop name.length).dropWhile isSpaceChar with
    | ':' :: rest =>
        let value := rest.takeWhile (fun c => c ≠ ';')
        if value.isEmpty then none else some value
    | _ => none
  else none

/-- First match of the value pattern over the whole text, as
cssText.match(new RegExp(name + "\\s*:\\s*([^;]+)")) in
CSSAnalyzer.analyzeVariables (css-analyzer.ts line 58). -/
def firstValueMatch (name : List Char) : List Char → Option (List Char)
  | [] => none
  | c :: cs =>
      match tryValueAt name (c :: cs) with
      | some v => some v
      | none => firstValueMatch name cs

/-- A declared variable with its best-effort value, from the CSSVariable
record built in CSSAnalyzer.analyzeVariables (css-analyzer.ts lines 57-61);
location is always undefined there and is omitted. -/
structure CSSVariable where
  name : String
  value : String
  usageCount : Nat
deriving DecidableEq, Repr

/-- The value attached to a declared name: the trimmed capture of the first
textual match, or the empty string when there is no match. -/
def declaredValue (cssText : String) (name : String) : String :=
  match firstValueMatch name.toList cssText.toList with
  | some v => String.mk (trimChars v)
  | none => ""

/-- A duplicate group, from DuplicateVariable in src/core/types.ts.  The
source field name variables is a reserved word in Lean and is rendered as
names. -/
structure DuplicateVariable where
  value : String
  names : List String
deriving DecidableEq, Repr

/-- One Map.set step of the duplicate grouping: append the name to the entry
of this value, keeping the entry at its first-insertion position, or append a
new entry at the end (JavaScript Map insertion-order semantics). -/
def addToValueMap (m : List (String × List String)) (value name : String) :
    List (String × List String) :=
  match m with
  | [] => [(value, [name])]
  | (v, ns) :: rest =>
      if v = value then (v, ns ++ [name]) :: rest
      else (v, ns) :: addToValueMap rest value name

/-- The valueMap built in CSSAnalyzer.analyzeVariables (lines 63-69):
variables with a truthy (nonempty) value are grouped by value. -/
def buildValueMap (vars : List CSSVariable) : List (String × List String) :=
  vars.foldl (fun m v => if v.value ≠ "" then addToValueMap m v.value v.name else m) []

/-- VariablesReport, from CSSVariablesReport in src/core/types.ts. -/
structure CSSVariablesReport where
  declared : List CSSVariable
  used : List String
  unused : List String
  unresolved : List String
  duplicates : List DuplicateVariable
deriving DecidableEq, Repr

/-- CSSAnalyzer.analyzeVariables (css-analyzer.ts lines 46-82): set
differences for unused and unresolved, first-textual-match values, and
duplicate groups of size at least two. -/
def analyzeVariables (cssText : String) : CSSVariablesReport :=
  let declared := (extractVariables cssText).1
  let used := (extractVariables cssText).2
  let unused := declared.filter (fun v => !used.contains v)
  let unresolved := used.filter (fun v => !declared.contains v)
  let declaredVars := declared.map (fun name =>
    { name := name, value := declaredValue cssText name, usageCount := 0 })
  let duplicates :=
    ((buildValueMap declaredVars).filter (fun p => p.2.length > 1)).map
      (fun p => { value := p.1, names := p.2 })
  { declared := declaredVars
    used := used
    unused := unused
    unresolved := unresolved
    duplicates := duplicates }

/-- Number of occurrences of the hash character in a selector, the idCount of
CSSAnalyzer.analyzeSelectors (css-analyzer.ts line 143). -/
def idCount (selector : String) : Nat :=
  (selector.toList.filter (fun c => c = '#')).length

/-- Number of occurrences of the dot character in a selector, the classCount
of CSSAnalyzer.analyzeSelectors (css-analyzer.ts line 144). -/
def classCount (selector : String) : Nat :=
  (selector.toList.filter (fun c => c = '.')).length

/-- The high-specificity heuristic of css-analyzer.ts line 146:
idCount > 1 or (idCount > 0 and classCount > 2). -/
def isHighSpecificity (selector : String) : Bool :=
  decide (idCount selector > 1)
    || (decide (idCount selector > 0) && decide (classCount selector > 2))

/-- The diagnostic pushed for an offending rule (css-analyzer.ts lines
147-155).  The wall-clock/random id suffix is abstracted to a constant since
no claim depends on it. -/
def specificityError (selector : String) : CSSError :=
  { id := "specificity"
    type := .highSpecificity
    severity := .medium
    message := "High specificity selector"
    details := "Selector \"" ++ selector ++ "\" has high specificity which may cause maintenance issues"
    locationSelector := some selector
    suggestion := some ("Reduce specificity by removing ID selectors or nested classes") }

/-- Outcome of the external postcss parse: the list of style-rule selector
texts in walkRules order, or a failure message. -/
inductive ParseResult where
  | ok (rules : List String)
  | failed (msg : String)

/-- The rule walk of CSSAnalyzer.analyzeSelectors (css-analyzer.ts lines
139-157): one medium high-specificity diagnostic per offending rule, in rule
order. -/
def analyzeSelectors (rules : List String) : List CSSError :=
  (rules.filter (fun sel => isHighSpecificity sel)).map specificityError

/-- The parse-error diagnostic of css-analyzer.ts lines 160-167 (id again
abstracted). -/
def parseErrorDiag (msg : String) : CSSError :=
  { id := "parse_error"
    type := .parseFailure
    severity := .critical
    message := "CSS parsing error"
    details := "Failed to parse CSS: " ++ msg
    suggestion := some ("Check CSS syntax for errors") }

/-- CSSAnalyzer.analyzeSelectors on raw text, with the postcss parse supplied
as a capability: on failure exactly one critical parse-error diagnostic. -/
def analyzeSelectorsText (parse : String → ParseResult) (cssText : String) : List CSSError :=
  match parse cssText with
  | .ok rules => analyzeSelectors rules
  | .failed msg => [parseErrorDiag msg]

/-- Page status, from PageStatus in src/core/types.ts. -/
inductive PageStatus where
  | success
  | error
  | excluded
  | pending
deriving DecidableEq, Repr

/-- ExtractedCSS, from src/core/types.ts. -/
structure ExtractedCSS where
  inline : List String
  external : List String
  inlineStyles : List String
  cssText : String
deriving DecidableEq, Repr

/-- CrawledPage, from src/core/types.ts. -/
structure CrawledPage where
  url : String
  timestamp : Nat
  css : ExtractedCSS
  errors : List CSSError
  status : PageStatus
  harPath : Option String
deriving DecidableEq, Repr

/-- Failures that can escape a scan run: the ScanInProgress rejection of
scanSpecificURLs, the missing-base-URL error of scan, and any exception
thrown from a crawl step. -/
inductive ScanErr where
  | scanInProgress
  | noBaseUrl
  | crawlFailure (msg : String)
deriving DecidableEq, Repr

/-- External capabilities consumed by the database and the orchestrator:
Node URL parsing (hostname/pathname), the crawler (link discovery and page
crawling, the latter fallible), the postcss parser, the WordPress variable
prefix allowlist, and the wall clock (all Date.now readings of one run are
modelled by the single value now). -/
structure ScanEnv where
  hostname : String → String
  pathname : String → String
  links : String → List String
  fetch : String → Except ScanErr CrawledPage
  parse : String → ParseResult
  wpPrefixes : List String
  now : Nat

/-- AnalysisSnapshot, from src/core/types.ts. -/
structure AnalysisSnapshot where
  timestamp : Nat
  errorCount : Nat
  healthScore : Int
  errors : List CSSError
  harPath : Option String
deriving DecidableEq, Repr

/-- URLRecord, from src/core/types.ts. -/
structure URLRecord where
  url : String
  domain : String
  path : String
  firstSeen : Nat
  lastScanned : Nat
  scanCount : Nat
  status : PageStatus
  excluded : Bool
  errors : List CSSError
  errorCount : Nat
  healthScore : Int
  analysisHistory : List AnalysisSnapshot
  harPath : Option String := none
deriving DecidableEq, Repr

/-- The configuration record of DatabaseSchema, from src/core/types.ts. -/
structure DBConfig where
  baseUrl : String
  monitoringEnabled : Bool
  scanInterval : Nat
  excludedUrls : List String
  lastScan : Nat
  hostResolverRules : String
  customBrowserArgs : List String
deriving DecidableEq, Repr

/-- ScanHistory, from src/core/types.ts. -/
structure ScanHistory where
  id : String
  timestamp : Nat
  urlsScanned : Nat
  totalErrors : Nat
  duration : Nat
  summary : AnalysisSummary

/-- The lowdb data of DatabaseSchema, from src/core/types.ts. -/
structure DatabaseState where
  urls : List URLRecord
  config : DBConfig
  history : List ScanHistory

/-- Database.getURL (database.ts lines 58-62): first record with the given
url. -/
def getURL (db : DatabaseState) (url : String) : Option URLRecord :=
  db.urls.find? (fun u => u.url == url)

/-- The Partial<URLRecord> & {url} argument of Database.addOrUpdateURL:
absent fields are none. -/
structure URLUpsert where
  url : String
  domain : Option String := none
  path : Option String := none
  firstSeen : Option Nat := none
  lastScanned : Option Nat := none
  scanCount : Option Nat := none
  status : Option PageStatus := none
  excluded : Option Bool := none
  errors : Option (List CSSError) := none
  errorCount : Option Nat := none
  healthScore : Option Int := none
  analysisHistory : Option (List AnalysisSnapshot) := none
  harPath : Option String := none
deriving DecidableEq, Repr

/-- Replace the first record with the given url by f applied to it, the
findIndex-then-assign pattern of database.ts. -/
def updateFirst (urls : List URLRecord) (url : String) (f : URLRecord → URLRecord) :
    List URLRecord :=
  match urls with
  | [] => []
  | r :: rest => if r.url == url then f r :: rest else r :: updateFirst rest url f

/-- The update branch of Database.addOrUpdateURL (database.ts lines 77-88):
object spread of the provided fields over the existing record, then
lastScanned := now and scanCount incremented. -/
def applyUpsert (existing : URLRecord) (p : URLUpsert) (now : Nat) : URLRecord :=
  { url := p.url
    domain := p.domain.getD existing.domain
    path := p.path.getD existing.path
    firstSeen := p.firstSeen.getD existing.firstSeen
    lastScanned := now
    scanCount := existing.scanCount + 1
    status := p.status.getD existing.status
    excluded := p.excluded.getD existing.excluded
    errors := p.errors.getD existing.errors
    errorCount := p.errorCount.getD existing.errorCount
    healthScore := p.healthScore.getD existing.healthScore
    analysisHistory := p.analysisHistory.getD existing.analysisHistory
    harPath := match p.harPath with
      | some hp => some hp
      | none => existing.harPath }

/-- Database.addOrUpdateURL (database.ts lines 70-109).  In the add branch
the JavaScript || defaults make a supplied healthScore of 0 fall back to
100 (0 is falsy), while status, excluded, errors, errorCount and
analysisHistory keep supplied values (their falsy defaults coincide with the
supplied falsy values); the new-record literal has no harPath field.  This is
the record built by the add branch. -/
def newURLRecord (env : ScanEnv) (p : URLUpsert) (now : Nat) : URLRecord :=
  { url := p.url
    domain := env.hostname p.url
    path := env.pathname p.url
    firstSeen := now
    lastScanned := now
    scanCount := 1
    status := p.status.getD .pending
    excluded := p.excluded.getD false
    errors := p.errors.getD []
    errorCount := p.errorCount.getD 0
    healthScore := match p.healthScore with
      | none => 100
      | some h => if h = 0 then 100 else h
    analysisHistory := p.analysisHistory.getD []
    harPath := none }

/-- Database.addOrUpdateURL (database.ts lines 70-109): update in place by
spread when the URL exists, otherwise append the new record. -/
def addOrUpdateURL (env : ScanEnv) (db : DatabaseState) (p : URLUpsert) (now : Nat) :
    DatabaseState × URLRecord :=
  match db.urls.find? (fun u => u.url == p.url) with
  | some existing =>
      let updated := applyUpsert existing p now
      ({ db with urls := updateFirst db.urls p.url (fun _ => updated) }, updated)
  | none =>
      let newRecord := newURLRecord env p now
      ({ db with urls := db.urls ++ [newRecord] }, newRecord)

/-- The per-record mutation performed by Database.updateURLErrors (database.ts
lines 117-140): refresh the record's errors, count and score, optionally
replace harPath (skipped for a falsy empty string), append an
AnalysisSnapshot and keep only the last 50. -/
def applyAnalysisUpdate (errors : List CSSError) (harPath : Option String) (now : Nat)
    (r : URLRecord) : URLRecord :=
  let healthScore := calculateHealthScore errors
  let harPath₂ := match harPath with
    | some hp => if hp = "" then r.harPath else some hp
    | none => r.harPath
  let snapshot : AnalysisSnapshot :=
    { timestamp := now
      errorCount := errors.length
      healthScore := healthScore
      errors := errors
      harPath := harPath }
  let newHistory := r.analysisHistory ++ [snapshot]
  { r with
    errors := errors
    errorCount := errors.length
    healthScore := healthScore
    harPath := harPath₂
    analysisHistory :=
      if newHistory.length > 50 then newHistory.drop (newHistory.length - 50)
      else newHistory }

/-- Database.updateURLErrors (database.ts lines 111-144): a no-op when the
URL is unknown, otherwise the per-record mutation above on the found
record. -/
def updateURLErrors (db : DatabaseState) (url : String) (errors : List CSSError)
    (harPath : Option String) (now : Nat) : DatabaseState :=
  match db.urls.find? (fun u => u.url == url) with
  | none => db
  | some _ =>
      { db with urls := updateFirst db.urls url (applyAnalysisUpdate errors harPath now) }

/-- Database.excludeURL (database.ts lines 146-156). -/
def excludeURL (db : DatabaseState) (url : String) (excluded : Bool) : DatabaseState :=
  match db.urls.find? (fun u => u.url == url) with
  | none => db
  | some _ =>
      { db with urls := updateFirst db.urls url (fun r =>
          { r with excluded := excluded
                   status := if excluded then .excluded else .pending }) }

/-- Database.clearURLs (database.ts lines 158-163). -/
def clearURLs (db : DatabaseState) : DatabaseState :=
  { db with urls := [] }

/-- Database.deleteURL (database.ts lines 165-170). -/
def deleteURL (db : DatabaseState) (url : String) : DatabaseState :=
  { db with urls := db.urls.filter (fun u => !(u.url == url)) }

/-- Database.deleteURLs (database.ts lines 172-178). -/
def deleteURLs (db : DatabaseState) (urls : List String) : DatabaseState :=
  { db with urls := db.urls.filter (fun u => !(urls.contains u.url)) }

/-- Database.addScanHistory (database.ts lines 209-226): append and keep the
last 100 entries.  The record's wall-clock id is built by the caller here. -/
def addScanHistory (db : DatabaseState) (h : ScanHistory) : DatabaseState :=
  let history := db.history ++ [h]
  { db with history :=
      if history.length > 100 then history.drop (history.length - 100) else history }

/-- Database.updateConfig restricted to the lastScan field, the only
configuration update the scan paths perform. -/
def updateConfigLastScan (db : DatabaseState) (now : Nat) : DatabaseState :=
  { db with config := { db.config with lastScan := now } }

/-- Modelled from the spec: the module
src/analyzers/css-variables/known-wordpress-variables.js imported by
css-analyzer.ts is not among the repository sources.  Section 4.1 of the
specification describes it as identifying WordPress-namespaced custom
properties by a known-prefix allowlist; the allowlist itself is the
wpPrefixes capability of ScanEnv. -/
def isWordPressVariable (prefixes : List String) (name : String) : Bool :=
  prefixes.any (fun p => p.isPrefixOf name)

/-- CSSAnalyzer.getVariableErrors (css-analyzer.ts lines 84-131): one high
error per non-WordPress unresolved name, one low error per unused name, one
medium error per duplicate group.  Wall-clock id suffixes are abstracted. -/
def getVariableErrors (prefixes : List String) (report : CSSVariablesReport) :
    List CSSError :=
  (report.unresolved.filterMap (fun varName =>
    if isWordPressVariable prefixes varName then none
    else some
      { id := "unresolved_" ++ varName
        type := .unresolvedVariable
        severity := .high
        message := "Variable " ++ varName ++ " is used but not declared"
        details := "CSS custom property " ++ varName
          ++ " is referenced with var() but no declaration found"
        suggestion := some ("Declare " ++ varName ++ " in your CSS or check for typos") }))
  ++ report.unused.map (fun varName =>
      { id := "unused_" ++ varName
        type := .unusedVariable
        severity := .low
        message := "Variable " ++ varName ++ " is declared but never used"
        details := "CSS custom property " ++ varName ++ " is declared but not referenced"
        suggestion := some ("Remove " ++ varName ++ " if not needed or use it in your styles") })
  ++ (report.duplicates.filter (fun dup => dup.names.length > 1)).map (fun dup =>
      { id := "duplicate_" ++ dup.value
        type := .duplicateVariable
        severity := .medium
        message := "Multiple variables with same value"
        details := "Variables " ++ String.intercalate ", " dup.names
          ++ " all have value: " ++ dup.value
        suggestion := some ("Consider using a single variable for consistency") })

/-- AnalysisResult, from src/core/types.ts (the analyzer fills url,
timestamp, summary, errors and cssVariables). -/
structure AnalysisResult where
  url : String
  timestamp : Nat
  summary : AnalysisSummary
  errors : List CSSError
  cssVariables : CSSVariablesReport

/-- CSSAnalyzer.analyze (css-analyzer.ts lines 24-44): variable analysis,
selector analysis, then the summary over the accumulated error list. -/
def analyze (env : ScanEnv) (page : CrawledPage) : AnalysisResult :=
  let variablesReport := analyzeVariables page.css.cssText
  let errors := getVariableErrors env.wpPrefixes variablesReport
    ++ analyzeSelectorsText env.parse page.css.cssText
  { url := page.url
    timestamp := env.now
    summary := calculateSummary errors
    errors := errors
    cssVariables := variablesReport }

/-- The events an Orchestrator run emits (EventEmitter payloads, from the
emit calls in src/core/orchestrator.ts).  scanFailed stands for the
scan:error event. -/
inductive ScanEvent where
  | scanStarted
  | scanProgress (current total : Nat) (currentUrl : String)
  | pageAnalyzed (url : String) (errorCount : Nat) (healthScore : Int) (status : PageStatus)
  | scanCompleted (urlsScanned totalErrors duration : Nat)
  | scanFailed
  | urlExcluded (url : String) (excluded : Bool)
deriving DecidableEq, Repr

/-- The orchestrator's mutable state: the single-flight isScanning flag and
the liveness of the crawler's browser resources, next to the persistent
store. -/
structure OrchState where
  isScanning : Bool
  crawlerOpen : Bool
  db : DatabaseState

/-- Accumulated outcome of the per-URL loop. -/
structure LoopOut where
  db : DatabaseState
  scanned : Nat
  totalErrors : Nat
  events : List ScanEvent
  fetched : List String
  result : Except ScanErr Unit

/-- The per-URL loop shared by Orchestrator.scan and
Orchestrator.scanSpecificURLs: a URL whose record is excluded is skipped
with no event and no fetch; otherwise scan:progress is emitted, the page is
crawled (a throw escapes the loop), analyzed, persisted through
addOrUpdateURL and updateURLErrors, and page:analyzed is emitted. -/
def scanLoop (env : ScanEnv) (total : Nat) :
    DatabaseState → Nat → Nat → List String → LoopOut
  | db, scanned, totalErrors, [] =>
      { db := db, scanned := scanned, totalErrors := totalErrors,
        events := [], fetched := [], result := .ok () }
  | db, scanned, totalErrors, url :: rest =>
      let isExcluded := match getURL db url with
        | some r => r.excluded
        | none => false
      if isExcluded then scanLoop env total db scanned totalErrors rest
      else
        match env.fetch url with
        | .error e =>
            { db := db, scanned := scanned, totalErrors := totalErrors,
              events := [.scanProgress (scanned + 1) total url],
              fetched := [url], result := .error e }
        | .ok crawledPage =>
            let analysis := analyze env crawledPage
            let db₁ := (addOrUpdateURL env db
              { url := url
                status := some crawledPage.status
                errors := some analysis.errors
                errorCount := some analysis.errors.length
                healthScore := some analysis.summary.healthScore } env.now).1
            let db₂ := updateURLErrors db₁ url analysis.errors crawledPage.harPath env.now
            let out :=
              scanLoop env total db₂ (scanned + 1) (totalErrors + analysis.errors.length) rest
            { db := out.db, scanned := out.scanned, totalErrors := out.totalErrors,
              events := .scanProgress (scanned + 1) total url
                :: .pageAnalyzed url analysis.errors.length
                    analysis.summary.healthScore crawledPage.status
                :: out.events,
              fetched := url :: out.fetched,
              result := out.result }

/-- One pass of the link-push loop of Orchestrator.discoverURLs (types.ts
lines 458-462): a link is enqueued only if it is in neither the visited set
nor the current frontier. -/
def enqueueLinks (toVisit visited links : List String) : List String :=
  links.foldl
    (fun tv link => if link ∉ visited ∧ link ∉ tv then tv ++ [link] else tv) toVisit

/-- The breadth-first discovery loop of Orchestrator.discoverURLs (types.ts
lines 436-480).  The visited and discovered sets always hold the same
elements (both start empty and each non-skip iteration adds currentUrl to
both); that equality is threaded as a proof so the maxPages cap bounds the
recursion. -/
def discoverGo (env : ScanEnv) (maxPages : Nat) :
    (toVisit : List String) → (visited discovered : List String) →
      visited = discovered → List String
  | [], _, discovered, _ => discovered
  | currentUrl :: rest, visited, discovered, hinv =>
      if hcap : discovered.length < maxPages then
        if hv : currentUrl ∈ visited then
          discoverGo env maxPages rest visited discovered hinv
        else
          discoverGo env maxPages
            (enqueueLinks rest (visited ++ [currentUrl]) (env.links currentUrl))
            (visited ++ [currentUrl]) (discovered ++ [currentUrl])
            (by rw [hinv])
      else discovered
termination_by toVisit _ discovered _ => (maxPages - discovered.length, toVisit.length)
decreasing_by
  · apply Prod.Lex.right
    simp
  · apply Prod.Lex.left
    simp only [List.length_append, List.length_cons, List.length_nil]
    omega

/-- Orchestrator.discoverURLs from the base URL. -/
def discoverURLs (env : ScanEnv) (baseUrl : String) (maxPages : Nat) : List String :=
  discoverGo env maxPages [baseUrl] [] [] rfl

/-- The orchestrator's in-memory CSSAuditConfig, reduced to the fields the
scan paths read: baseUrl and maxPages (the crawler sub-config only flows to
the external crawler capability). -/
structure AuditConfig where
  baseUrl : String
  maxPages : Option Nat
deriving DecidableEq, Repr

/-- JavaScript x || d on an optional Nat: undefined and the falsy 0 both fall
back to the default. -/
def jsOrNat (x : Option Nat) (d : Nat) : Nat :=
  match x with
  | none => d
  | some 0 => d
  | some n => n

/-- Observable outcome of one scan entry point: the orchestrator state after
the finally block, the emitted event sequence, the URLs passed to
crawlPage, and the returned or thrown result. -/
structure ScanRunResult where
  state : OrchState
  events : List ScanEvent
  fetched : List String
  result : Except ScanErr Unit

/-- The shared completion path after a successful loop: set lastScan, append
the ScanHistory entry (with the stub summary literal of the source), emit
scan:completed.  All Date.now readings being env.now, the recorded duration
is 0. -/
def finishRun (env : ScanEnv) (out : LoopOut) : DatabaseState × List ScanEvent :=
  let db₂ := updateConfigLastScan out.db env.now
  let db₃ := addScanHistory db₂
    { id := "scan"
      timestamp := env.now
      urlsScanned := out.scanned
      totalErrors := out.totalErrors
      duration := 0
      summary :=
        { totalErrors := out.totalErrors
          errorsBySeverity := { critical := 0, high := 0, medium := 0, low := 0 }
          errorsByType := fun _ => 0
          healthScore := 0
          status := .healthy } }
  (db₃, [.scanCompleted out.scanned out.totalErrors 0])

/-- The catch/finally wrapper shared by both entry points: a failure appends
the scan:error event and propagates; in every case the finally block resets
isScanning to false and closes the crawler. -/
def finalizeRun (db : DatabaseState) (events : List ScanEvent)
    (fetched : List String) (result : Except ScanErr Unit) : ScanRunResult :=
  { state := { isScanning := false, crawlerOpen := false, db := db }
    events := match result with
      | .ok _ => events
      | .error _ => events ++ [.scanFailed]
    fetched := fetched
    result := result }

/-- The part after the per-URL loop, shared verbatim by scan and
scanSpecificURLs: on loop failure finalize with the error, on success run the
completion path and finalize with ok. -/
def wrapLoop (env : ScanEnv) (out : LoopOut) : ScanRunResult :=
  match out.result with
  | .error e =>
      finalizeRun out.db (.scanStarted :: out.events) out.fetched (.error e)
  | .ok _ =>
      let fin := finishRun env out
      finalizeRun fin.1 (.scanStarted :: (out.events ++ fin.2)) out.fetched (.ok ())

/-- Orchestrator.scan (orchestrator source lines 310-431): a silent no-op
when isScanning is already true; otherwise isScanning is set, scan:started
is emitted, the base URL is resolved (this.config.baseUrl || dbConfig's),
URLs are discovered and the loop runs; completion or failure both pass
through the finally reset. -/
def scan (env : ScanEnv) (cfg : AuditConfig) (s : OrchState) : ScanRunResult :=
  if s.isScanning then
    { state := s, events := [], fetched := [], result := .ok () }
  else
    let baseUrl := if cfg.baseUrl ≠ "" then cfg.baseUrl else s.db.config.baseUrl
    if baseUrl = "" then
      finalizeRun s.db [.scanStarted] [] (.error .noBaseUrl)
    else
      let urls := discoverURLs env baseUrl (jsOrNat cfg.maxPages 50)
      wrapLoop env (scanLoop env urls.length s.db 0 0 urls)

/-- Orchestrator.scanSpecificURLs (orchestrator source lines 537-647): the
guard throws ScanInProgress before entering the try block (so the state is
untouched); otherwise the caller-supplied list is scanned with the same
loop, completion and finally paths. -/
def scanSpecificURLs (env : ScanEnv) (urls : List String) (s : OrchState) : ScanRunResult :=
  if s.isScanning then
    { state := s, events := [], fetched := [], result := .error .scanInProgress }
  else
    wrapLoop env (scanLoop env urls.length s.db 0 0 urls)

/-- Whether an event is the scan:progress or page:analyzed event of a given
URL (the only event kinds that name the URL being processed). -/
def eventMentions (u : String) : ScanEvent → Bool
  | .scanProgress _ _ url => url == u
  | .pageAnalyzed url _ _ _ => url == u
  | _ => false

/-- The snapshot-retention invariant: every record's analysisHistory holds at
most 50 snapshots. -/
def historyCapped (db : DatabaseState) : Prop :=
  ∀ r ∈ db.urls, r.analysisHistory.length ≤ 50

/-- The last n elements of a list (Array.prototype.slice with a negative
index). -/
def lastN {α : Type} (n : Nat) (l : List α) : List α :=
  (l.reverse.take n).reverse

/-- The AnalysisSnapshot recorded by updateURLErrors for one analysis pass
given its error list, HAR path and timestamp. -/
def stepSnapshot (step : List CSSError × Option String × Nat) : AnalysisSnapshot :=
  { timestamp := step.2.2
    errorCount := step.1.length
    healthScore := calculateHealthScore step.1
    errors := step.1
    harPath := step.2.1 }

/-- A sequence of updateURLErrors calls against the same URL, each step being
the error list, HAR path and timestamp of one analysis pass. -/
def applyAnalyses (db : DatabaseState) (url : String)
    (steps : List (List CSSError × Option String × Nat)) : DatabaseState :=
  steps.foldl (fun d step => updateURLErrors d url step.1 step.2.1 step.2.2) db

/-- The default configuration record of Database.getDefaultData. -/
def defaultDBConfig : DBConfig :=
  { baseUrl := ""
    monitoringEnabled := false
    scanInterval := 5
    excludedUrls := []
    lastScan := 0
    hostResolverRules := ""
    customBrowserArgs := [] }

/-- The empty store of Database.getDefaultData, used to instantiate the
universally quantified theorems at concrete inputs. -/
def emptyDB : DatabaseState :=
  { urls := [], config := defaultDBConfig, history := [] }

/-- A concrete successfully crawled page with empty CSS. -/
def samplePage (url : String) : CrawledPage :=
  { url := url
    timestamp := 0
    css := { inline := [], external := [], inlineStyles := [], cssText := "" }
    errors := []
    status := .success
    harPath := none }

/-- A concrete environment whose crawls all succeed, used to instantiate the
universally quantified theorems at concrete inputs. -/
def sampleEnv : ScanEnv :=
  { hostname := fun _ => "example.com"
    pathname := fun _ => "/"
    links := fun _ => []
    fetch := fun url => .ok (samplePage url)
    parse := fun _ => .ok []
    wpPrefixes := []
    now := 0 }

/-- The idle orchestrator state over the empty store. -/
def idleState : OrchState :=
  { isScanning := false, crawlerOpen := false, db := emptyDB }

/-- An orchestrator state with a scan in flight. -/
def busyState : OrchState :=
  { isScanning := true, crawlerOpen := true, db := emptyDB }

/-- A concrete URLRecord that has been excluded from scanning. -/
def excludedRecord (u : String) : URLRecord :=
  { url := u
    domain := "example.com"
    path := "/"
    firstSeen := 0
    lastScanned := 0
    scanCount := 1
    status := .excluded
    excluded := true
    errors := []
    errorCount := 0
    healthScore := 100
    analysisHistory := []
    harPath := none }

/-- A concrete non-excluded URLRecord with empty history. -/
def plainRecord (u : String) : URLRecord :=
  { url := u
    domain := "example.com"
    path := "/"
    firstSeen := 0
    lastScanned := 0
    scanCount := 1
    status := .pending
    excluded := false
    errors := []
    errorCount := 0
    healthScore := 100
    analysisHistory := []
    harPath := none }

/-- A store holding a single record. -/
def oneRecordDB (r : URLRecord) : DatabaseState :=
  { urls := [r], config := defaultDBConfig, history := [] }

/-- Association-list lookup on the insertion-ordered value map (Map.get). -/
def lookupVM : List (String × List String) → String → Option (List String)
  | [], _ => none
  | (v, ns) :: rest, value => if v = value then some ns else lookupVM rest value

/-- The declared names carrying a given value, in declaration order. -/
def namesWithValue (vars : List CSSVariable) (value : String) : List String :=
  (vars.filter (fun x => x.value == value)).map CSSVariable.name

theorem countSeverity_cons (e : CSSError) (es : List CSSError) (s : ErrorSeverity) :
    countSeverity (e :: es) s =
      (if e.severity = s then 1 else 0) + countSeverity es s := by
  simp only [countSeverity, List.filter_cons]
  by_cases h : e.severity = s
  · simp [h, Nat.add_comm]
  · simp [h, beq_iff_eq]

theorem weighted_counts_eq_penaltySpec (errors : List CSSError) :
    (countSeverity errors .critical : Int) * severityWeight .critical
      + (countSeverity errors .high : Int) * severityWeight .high
      + (countSeverity errors .medium : Int) * severityWeight .medium
      + (countSeverity errors .low : Int) * severityWeight .low
      = penaltySpec errors := by
  induction errors with
  | nil => simp [countSeverity, penaltySpec]
  | cons e es ih =>
    simp only [countSeverity_cons, penaltySpec, List.map_cons, List.sum_cons] at *
    cases h : e.severity <;>
      · simp only [h, severityWeight] at *
        push_cast
        omega

theorem penaltySpec_nonneg (errors : List CSSError) : 0 ≤ penaltySpec errors := by
  induction errors with
  | nil => simp [penaltySpec]
  | cons e es ih =>
    simp only [penaltySpec, List.map_cons, List.sum_cons] at *
    have h : 0 ≤ severityWeight e.severity := by
      cases e.severity <;> simp [severityWeight]
    omega

theorem foldl_weight_eq_penaltySpec (errors : List CSSError) :
    errors.foldl (fun acc e => acc + severityWeight e.severity) 0 = penaltySpec errors := by
  have step : ∀ (l : List CSSError) (a : Int),
      l.foldl (fun acc e => acc + severityWeight e.severity) a = a + penaltySpec l := by
    intro l
    induction l with
    | nil => intro a; simp [penaltySpec]
    | cons e es ih =>
      intro a
      simp only [List.foldl_cons, ih, penaltySpec, List.map_cons, List.sum_cons]
      ring
  simpa using step errors 0

theorem calculateSummary_healthScore (errors : List CSSError) :
    (calculateSummary errors).healthScore = max 0 (min 100 (100 - penaltySpec errors)) := by
  simp only [calculateSummary]
  rw [weighted_counts_eq_penaltySpec]

theorem calculateSummary_status (errors : List CSSError) :
    (calculateSummary errors).status =
      (if (calculateSummary errors).healthScore ≥ 80 then HealthStatus.healthy
       else if (calculateSummary errors).healthScore ≥ 50 then HealthStatus.warning
       else HealthStatus.critical) := by
  simp only [calculateSummary]

/-- C1: the health scorer computes the penalty as the sum of the fixed
severity weights (critical=20, high=10, medium=5, low=2), returns
healthScore = clamp(100 - penalty, 0, 100) as an integer (the database
scorer agrees with the analyzer scorer), assigns status healthy when the
score is at least 80, warning when it is in [50, 80), critical below 50;
score([]) = (100, healthy), one critical error gives (80, healthy), two
critical errors give (60, warning), ten critical errors clamp to
(0, critical), and the score never leaves [0, 100]. -/
theorem health_scorer_spec :
    (∀ errors : List CSSError,
        (calculateSummary errors).healthScore = max 0 (min 100 (100 - penaltySpec errors))
        ∧ calculateHealthScore errors = (calculateSummary errors).healthScore
        ∧ 0 ≤ (calculateSummary errors).healthScore
        ∧ (calculateSummary errors).healthScore ≤ 100
        ∧ ((calculateSummary errors).status = .healthy ↔ 80 ≤ (calculateSummary errors).healthScore)
        ∧ ((calculateSummary errors).status = .warning ↔
            50 ≤ (calculateSummary errors).healthScore ∧ (calculateSummary errors).healthScore < 80)
        ∧ ((calculateSummary errors).status = .critical ↔ (calculateSummary errors).healthScore < 50))
    ∧ (calculateSummary []).healthScore = 100 ∧ (calculateSummary []).status = .healthy
    ∧ (∀ e : CSSError, e.severity = .critical →
        (calculateSummary [e]).healthScore = 80 ∧ (calculateSummary [e]).status = .healthy)
    ∧ (∀ e₁ e₂ : CSSError, e₁.severity = .critical → e₂.severity = .critical →
        (calculateSummary [e₁, e₂]).healthScore = 60 ∧ (calculateSummary [e₁, e₂]).status = .warning)
    ∧ (∀ errors : List CSSError, errors.length = 10 → (∀ e ∈ errors, e.severity = .critical) →
        (calculateSummary errors).healthScore = 0 ∧ (calculateSummary errors).status = .critical) := by
  have hscore := calculateSummary_healthScore
  have hstat := calculateSummary_status
  have hands : ∀ errors : List CSSError,
      0 ≤ (calculateSummary errors).healthScore ∧ (calculateSummary errors).healthScore ≤ 100 := by
    intro errors
    rw [hscore]
    constructor
    · exact le_max_left 0 _
    · have h1 : min 100 (100 - penaltySpec errors) ≤ (100 : Int) := min_le_left _ _
      omega
  have hstatus : ∀ errors : List CSSError,
      ((calculateSummary errors).status = .healthy ↔ 80 ≤ (calculateSummary errors).healthScore)
      ∧ ((calculateSummary errors).status = .warning ↔
          50 ≤ (calculateSummary errors).healthScore ∧ (calculateSummary errors).healthScore < 80)
      ∧ ((calculateSummary errors).status = .critical ↔ (calculateSummary errors).healthScore < 50) := by
    intro errors
    rw [hstat]
    split_ifs with h80 h50
    · exact ⟨⟨fun _ => h80, fun _ => rfl⟩,
        ⟨fun h => h.elim, fun h => absurd h80 (by omega)⟩,
        ⟨fun h => h.elim, fun h => absurd h80 (by omega)⟩⟩
    · exact ⟨⟨fun h => h.elim, fun h => absurd h h80⟩,
        ⟨fun _ => ⟨h50, by omega⟩, fun _ => rfl⟩,
        ⟨fun h => h.elim, fun h => absurd h50 (by omega)⟩⟩
    · exact ⟨⟨fun h => h.elim, fun h => absurd h h80⟩,
        ⟨fun h => h.elim, fun h => absurd h.1 h50⟩,
        ⟨fun _ => by omega, fun _ => rfl⟩⟩
  have hagree : ∀ errors : List CSSError,
      calculateHealthScore errors = (calculateSummary errors).healthScore := by
    intro errors
    rw [hscore]
    cases errors with
    | nil => simp [calculateHealthScore, penaltySpec]
    | cons e es =>
      have hpen := penaltySpec_nonneg (e :: es)
      simp only [calculateHealthScore, List.length_cons, foldl_weight_eq_penaltySpec]
      have hmin : min 100 (100 - penaltySpec (e :: es)) = 100 - penaltySpec (e :: es) := by
        omega
      simp only [if_neg (Nat.succ_ne_zero es.length), hmin]
  refine ⟨fun errors => ⟨hscore errors, hagree errors, (hands errors).1, (hands errors).2,
      hstatus errors⟩, ?_, ?_, ?_, ?_, ?_⟩
  · rw [hscore]; simp [penaltySpec]
  · rw [(hstatus []).1, hscore]; simp [penaltySpec]
  · intro e he
    have h1 : penaltySpec [e] = 20 := by simp [penaltySpec, he, severityWeight]
    have h2 : (calculateSummary [e]).healthScore = 80 := by rw [hscore, h1]; rfl
    exact ⟨h2, by rw [(hstatus [e]).1, h2]⟩
  · intro e₁ e₂ h1 h2
    have hp : penaltySpec [e₁, e₂] = 40 := by simp [penaltySpec, h1, h2, severityWeight]
    have hs : (calculateSummary [e₁, e₂]).healthScore = 60 := by rw [hscore, hp]; rfl
    refine ⟨hs, ?_⟩
    rw [(hstatus [e₁, e₂]).2.1, hs]
    exact ⟨by norm_num, by norm_num⟩
  · intro errors hlen hall
    have hp : penaltySpec errors = 200 := by
      have : errors.map (fun e => severityWeight e.severity) = errors.map (fun _ => (20 : Int)) := by
        apply List.map_congr_left
        intro e he
        rw [hall e he]
        rfl
      simp [penaltySpec, this, hlen]
    have hs : (calculateSummary errors).healthScore = 0 := by
      rw [hscore, hp]
      rfl
    refine ⟨hs, ?_⟩
    rw [(hstatus errors).2.2, hs]
    norm_num

/-- Witness for health_scorer_spec at concrete inputs: two concrete critical
errors score (60, warning), and ten concrete critical errors score
(0, critical). -/
theorem health_scorer_spec_witness :
    ((calculateSummary [sampleError .critical, sampleError .critical]).healthScore = 60
      ∧ (calculateSummary [sampleError .critical, sampleError .critical]).status = .warning)
    ∧ ((calculateSummary (List.replicate 10 (sampleError .critical))).healthScore = 0
      ∧ (calculateSummary (List.replicate 10 (sampleError .critical))).status = .critical) :=
  ⟨health_scorer_spec.2.2.2.2.1 (sampleError .critical) (sampleError .critical) rfl rfl,
   health_scorer_spec.2.2.2.2.2 (List.replicate 10 (sampleError .critical)) (by decide)
     (by intro e he; simp [List.eq_of_mem_replicate he, sampleError])⟩

theorem declared_names_eq (cssText : String) :
    (analyzeVariables cssText).declared.map CSSVariable.name = (extractVariables cssText).1 := by
  simp [analyzeVariables, Function.comp_def]

theorem analyzeVariables_used_eq (cssText : String) :
    (analyzeVariables cssText).used = (extractVariables cssText).2 := rfl

theorem mem_unused_iff (cssText : String) (v : String) :
    v ∈ (analyzeVariables cssText).unused ↔
      v ∈ (extractVariables cssText).1 ∧ v ∉ (analyzeVariables cssText).used := by
  simp [analyzeVariables, List.mem_filter]

theorem mem_unresolved_iff (cssText : String) (v : String) :
    v ∈ (analyzeVariables cssText).unresolved ↔
      v ∈ (analyzeVariables cssText).used ∧ v ∉ (extractVariables cssText).1 := by
  simp [analyzeVariables, List.mem_filter]

/-- C2: analyzeVariables returns unused equal to the declared-name set minus
the used-name set, as a subsequence of the declared first-seen-order list,
and unresolved equal to the used-name set minus the declared-name set, as a
subsequence of the used first-seen-order list; consequently unused and used
are disjoint, and unresolved and declared are disjoint. -/
theorem analyzeVariables_set_differences (cssText : String) :
    ((analyzeVariables cssText).unused.Sublist
        ((analyzeVariables cssText).declared.map CSSVariable.name))
    ∧ (∀ v, v ∈ (analyzeVariables cssText).unused ↔
        v ∈ (analyzeVariables cssText).declared.map CSSVariable.name
          ∧ v ∉ (analyzeVariables cssText).used)
    ∧ ((analyzeVariables cssText).unresolved.Sublist (analyzeVariables cssText).used)
    ∧ (∀ v, v ∈ (analyzeVariables cssText).unresolved ↔
        v ∈ (analyzeVariables cssText).used
          ∧ v ∉ (analyzeVariables cssText).declared.map CSSVariable.name)
    ∧ (∀ v ∈ (analyzeVariables cssText).unused, v ∉ (analyzeVariables cssText).used)
    ∧ (∀ v ∈ (analyzeVariables cssText).unresolved,
        v ∉ (analyzeVariables cssText).declared.map CSSVariable.name) := by
  rw [declared_names_eq]
  refine ⟨?_, ?_, ?_, ?_, ?_, ?_⟩
  · simp [analyzeVariables]
  · exact mem_unused_iff cssText
  · simp [analyzeVariables]
  · exact mem_unresolved_iff cssText
  · intro v hv
    exact ((mem_unused_iff cssText v).mp hv).2
  · intro v hv
    exact ((mem_unresolved_iff cssText v).mp hv).2

/-- Witness for analyzeVariables_set_differences: on the end-to-end example
stylesheet of the specification, the declared-but-unreferenced variable --x
is in unused and therefore not in used, and the unresolved --y is not among
the declared names. -/
theorem analyzeVariables_set_differences_witness :
    ("--x" ∉ (analyzeVariables "--x:red; color:var(--y)").used)
    ∧ ("--y" ∉
        (analyzeVariables "--x:red; color:var(--y)").declared.map CSSVariable.name) :=
  ⟨(analyzeVariables_set_differences "--x:red; color:var(--y)").2.2.2.2.1 "--x"
      (by decide),
   (analyzeVariables_set_differences "--x:red; color:var(--y)").2.2.2.2.2 "--y"
      (by decide)⟩

theorem specificityError_inj {a b : String} (h : specificityError a = specificityError b) :
    a = b := by
  have h₂ := congrArg CSSError.locationSelector h
  simpa [specificityError] using h₂

theorem isHighSpecificity_iff (sel : String) :
    isHighSpecificity sel = true ↔
      1 < idCount sel ∨ (0 < idCount sel ∧ 2 < classCount sel) := by
  simp [isHighSpecificity]

theorem analyzeSelectors_countP (rules : List String) (sel : String) :
    (analyzeSelectors rules).countP (fun e => e.locationSelector == some sel) =
      if isHighSpecificity sel then rules.count sel else 0 := by
  induction rules with
  | nil => simp [analyzeSelectors]
  | cons r rs ih =>
    simp only [analyzeSelectors, List.filter_cons] at *
    by_cases hr : isHighSpecificity r
    · simp only [hr, if_pos, List.map_cons, List.countP_cons]
      by_cases hrs : r = sel
      · subst hrs
        simp only [specificityError, beq_iff_eq, Option.some.injEq] at *
        simp [hr, ih, List.count_cons]
      · have hne : (some r == some sel) = false := by
          simp [beq_iff_eq, hrs]
        simp only [specificityError] at *
        simp only [hne, ih, List.count_cons]
        simp [hrs]
    · simp only [hr, if_neg, Bool.false_eq_true, not_false_eq_true, ih, List.count_cons]
      by_cases hrs : r = sel
      · subst hrs
        simp [hr]
      · simp [hrs]

/-- C3: for every parsed rule list, a high-specificity diagnostic for a rule
is emitted if and only if idCount > 1 or (idCount > 0 and classCount > 2)
where idCount counts hash characters and classCount counts dot characters;
there is exactly one such diagnostic per offending rule occurrence, each of
medium severity; the selector "#a #b" satisfies the condition and ".a .b"
does not. -/
theorem analyzeSelectors_spec :
    (∀ sel, isHighSpecificity sel = true ↔
        1 < idCount sel ∨ (0 < idCount sel ∧ 2 < classCount sel))
    ∧ (∀ rules sel, sel ∈ rules →
        (specificityError sel ∈ analyzeSelectors rules ↔ isHighSpecificity sel = true))
    ∧ (∀ rules sel,
        (analyzeSelectors rules).countP (fun e => e.locationSelector == some sel) =
          if isHighSpecificity sel then rules.count sel else 0)
    ∧ (∀ rules e, e ∈ analyzeSelectors rules →
        e.severity = .medium ∧ e.type = .highSpecificity
          ∧ ∃ sel, sel ∈ rules ∧ isHighSpecificity sel = true ∧ e = specificityError sel)
    ∧ isHighSpecificity "#a #b" = true ∧ idCount "#a #b" = 2
    ∧ isHighSpecificity ".a .b" = false ∧ idCount ".a .b" = 0 ∧ classCount ".a .b" = 2 := by
  refine ⟨isHighSpecificity_iff, ?_, analyzeSelectors_countP, ?_, by decide, by decide,
    by decide, by decide, by decide⟩
  · intro rules sel hsel
    constructor
    · intro hmem
      rcases List.mem_map.mp hmem with ⟨x, hx, hxe⟩
      have hx₂ := List.mem_filter.mp hx
      rw [specificityError_inj hxe] at hx₂
      exact hx₂.2
    · intro hhigh
      exact List.mem_map.mpr ⟨sel, List.mem_filter.mpr ⟨hsel, hhigh⟩, rfl⟩
  · intro rules e hmem
    rcases List.mem_map.mp hmem with ⟨x, hx, hxe⟩
    have hx₂ := List.mem_filter.mp hx
    exact ⟨by rw [← hxe]; rfl, by rw [← hxe]; rfl, x, hx₂.1, hx₂.2, hxe.symm⟩

/-- Witness for analyzeSelectors_spec: in the concrete rule list
["#a #b", ".a .b"], the offending selector "#a #b" produces its diagnostic. -/
theorem analyzeSelectors_spec_witness :
    specificityError "#a #b" ∈ analyzeSelectors ["#a #b", ".a .b"] :=
  (analyzeSelectors_spec.2.1 ["#a #b", ".a .b"] "#a #b" (by decide)).mpr (by decide)

/-- C4 counterexample: the selector ".a .b .c" produces no diagnostic at all,
so it is not flagged as high-specificity, contrary to the claim. -/
theorem dot_abc_counterexample :
    analyzeSelectors [".a .b .c"] = [] := by decide

/-- C4 amended: the selector ".a .b .c" (idCount = 0, classCount = 3) is NOT
flagged: with no ID selector token, neither branch of the heuristic
condition holds. -/
theorem dot_abc_not_flagged :
    idCount ".a .b .c" = 0 ∧ classCount ".a .b .c" = 3
      ∧ isHighSpecificity ".a .b .c" = false := by decide

/-- C6: when isScanning is true, scan() returns without any scan work, event
or error (a silent no-op with the state untouched), while scanSpecificURLs
fails with the scan-in-progress error leaving the state untouched; when
isScanning is false both pass the guard and start the run, whose first
emitted event is scan:started. -/
theorem single_flight_guard (env : ScanEnv) (cfg : AuditConfig) (urls : List String)
    (s : OrchState) :
    (s.isScanning = true →
      scan env cfg s = { state := s, events := [], fetched := [], result := .ok () }
      ∧ scanSpecificURLs env urls s =
          { state := s, events := [], fetched := [], result := .error .scanInProgress })
    ∧ (s.isScanning = false →
      (scan env cfg s).events.head? = some .scanStarted
      ∧ (scanSpecificURLs env urls s).events.head? = some .scanStarted) := by
  constructor
  · intro h
    constructor
    · simp [scan, h]
    · simp [scanSpecificURLs, h]
  · intro h
    constructor
    · simp only [scan, wrapLoop, h, Bool.false_eq_true, if_false]
      repeat' split
      all_goals simp [finalizeRun]
    · simp only [scanSpecificURLs, wrapLoop, h, Bool.false_eq_true, if_false]
      repeat' split
      all_goals simp [finalizeRun]

/-- Witness for single_flight_guard: with a scan in flight, the concrete
calls are rejected exactly as stated, and from the idle state the run begins
with scan:started. -/
theorem single_flight_guard_witness :
    scan sampleEnv { baseUrl := "", maxPages := none } busyState =
      { state := busyState, events := [], fetched := [], result := .ok () }
    ∧ scanSpecificURLs sampleEnv ["https://a"] busyState =
      { state := busyState, events := [], fetched := [], result := .error .scanInProgress }
    ∧ (scanSpecificURLs sampleEnv ["https://a"] idleState).events.head? =
        some .scanStarted :=
  ⟨((single_flight_guard sampleEnv { baseUrl := "", maxPages := none } ["https://a"]
      busyState).1 rfl).1,
   ((single_flight_guard sampleEnv { baseUrl := "", maxPages := none } ["https://a"]
      busyState).1 rfl).2,
   ((single_flight_guard sampleEnv { baseUrl := "", maxPages := none } ["https://a"]
      idleState).2 rfl).2⟩

/-- C7: every invocation of scan() or scanSpecificURLs that passes the
single-flight guard terminates with isScanning reset to false and the
crawler's resources released, for every environment (so both for normal
completion and for propagated failures). -/
theorem scan_releases_state (env : ScanEnv) (cfg : AuditConfig) (urls : List String)
    (s : OrchState) (h : s.isScanning = false) :
    (scan env cfg s).state.isScanning = false
    ∧ (scan env cfg s).state.crawlerOpen = false
    ∧ (scanSpecificURLs env urls s).state.isScanning = false
    ∧ (scanSpecificURLs env urls s).state.crawlerOpen = false := by
  refine ⟨?_, ?_, ?_, ?_⟩ <;>
    · simp only [scan, scanSpecificURLs, wrapLoop, h, Bool.false_eq_true, if_false]
      repeat' split
      all_goals rfl

/-- Witness for scan_releases_state at the concrete idle state and
environment. -/
theorem scan_releases_state_witness :
    (scan sampleEnv { baseUrl := "", maxPages := none } idleState).state.isScanning = false
    ∧ (scan sampleEnv { baseUrl := "", maxPages := none } idleState).state.crawlerOpen = false
    ∧ (scanSpecificURLs sampleEnv ["https://a"] idleState).state.isScanning = false
    ∧ (scanSpecificURLs sampleEnv ["https://a"] idleState).state.crawlerOpen = false :=
  scan_releases_state sampleEnv { baseUrl := "", maxPages := none } ["https://a"]
    idleState rfl

/-- C10: when addOrUpdateURL creates a new record (URL not yet present), a
supplied healthScore of 0 is stored as 100 (the falsy default of the
JavaScript || operator treats the legitimate score 0 as absent, as does an
absent score), while any supplied non-zero score is stored unchanged; the
created record is stored under its URL. -/
theorem addOrUpdateURL_zero_score (env : ScanEnv) (db : DatabaseState) (p : URLUpsert)
    (now : Nat) (habsent : db.urls.find? (fun u => u.url == p.url) = none) :
    getURL (addOrUpdateURL env db p now).1 p.url = some (addOrUpdateURL env db p now).2
    ∧ (p.healthScore = some 0 → (addOrUpdateURL env db p now).2.healthScore = 100)
    ∧ (p.healthScore = none → (addOrUpdateURL env db p now).2.healthScore = 100)
    ∧ (∀ h : Int, p.healthScore = some h → h ≠ 0 →
        (addOrUpdateURL env db p now).2.healthScore = h) := by
  refine ⟨?_, ?_, ?_, ?_⟩
  · simp only [addOrUpdateURL, habsent, getURL]
    rw [List.find?_append, habsent]
    simp [List.find?, newURLRecord]
  · intro hps
    simp [addOrUpdateURL, newURLRecord, habsent, hps]
  · intro hps
    simp [addOrUpdateURL, newURLRecord, habsent, hps]
  · intro h hps hne
    simp [addOrUpdateURL, newURLRecord, habsent, hps, hne]

/-- Witness for addOrUpdateURL_zero_score: inserting a fresh URL into the
empty store with healthScore 0 stores 100, and with healthScore 7 stores
7. -/
theorem addOrUpdateURL_zero_score_witness :
    (addOrUpdateURL sampleEnv emptyDB { url := "https://a", healthScore := some 0 }
        0).2.healthScore = 100
    ∧ (addOrUpdateURL sampleEnv emptyDB { url := "https://a", healthScore := some 7 }
        0).2.healthScore = 7 :=
  ⟨(addOrUpdateURL_zero_score sampleEnv emptyDB
      { url := "https://a", healthScore := some 0 } 0 rfl).2.1 rfl,
   (addOrUpdateURL_zero_score sampleEnv emptyDB
      { url := "https://a", healthScore := some 7 } 0 rfl).2.2.2 7 rfl (by decide)⟩

theorem lastN_of_length_le {α : Type} (n : Nat) (l : List α) (h : l.length ≤ n) :
    lastN n l = l := by
  rw [lastN, List.take_of_length_le (by rw [List.length_reverse]; exact h),
    List.reverse_reverse]

theorem lastN_eq_drop {α : Type} (n : Nat) (l : List α) :
    lastN n l = l.drop (l.length - n) := by
  rw [lastN, List.take_reverse, List.reverse_reverse]

theorem length_lastN {α : Type} (n : Nat) (l : List α) :
    (lastN n l).length = min n l.length := by
  rw [lastN, List.length_reverse, List.length_take, List.length_reverse]

theorem lastN_append_lastN {α : Type} (n : Nat) (l l₂ : List α) :
    lastN n (lastN n l ++ l₂) = lastN n (l ++ l₂) := by
  unfold lastN
  rw [List.reverse_append, List.reverse_reverse, List.reverse_append]
  congr 1
  rw [List.take_append_eq_append_take, List.take_append_eq_append_take, List.take_take,
    Nat.min_eq_left (Nat.sub_le n l₂.reverse.length)]

theorem cap50_eq_lastN {α : Type} (l : List α) :
    (if l.length > 50 then l.drop (l.length - 50) else l) = lastN 50 l := by
  rw [lastN_eq_drop]
  split
  · rfl
  · have h : l.length - 50 = 0 := by omega
    rw [h, List.drop_zero]

theorem find?_updateFirst_self (url : String) (f : URLRecord → URLRecord)
    (hf : ∀ x, x.url = url → (f x).url = x.url) :
    ∀ (urls : List URLRecord) (r : URLRecord),
      urls.find? (fun x => x.url == url) = some r →
      (updateFirst urls url f).find? (fun x => x.url == url) = some (f r) := by
  intro urls
  induction urls with
  | nil => intro r h; simp [List.find?] at h
  | cons x rest ih =>
    intro r h
    by_cases hx : x.url = url
    · have hb : (x.url == url) = true := by simp [hx]
      rw [List.find?_cons, hb] at h
      simp only at h
      rw [updateFirst, if_pos hb, List.find?_cons]
      have hfx : ((f x).url == url) = true := by simp [hf x hx, hx]
      rw [hfx]
      simp only
      injection h with hxr
      rw [hxr]
    · have hb : (x.url == url) = false := by simp [hx]
      rw [List.find?_cons, hb] at h
      simp only at h
      rw [updateFirst, if_neg (by simp [hx]), List.find?_cons, hb]
      simp only
      exact ih r h

theorem find?_updateFirst_ne (url u : String) (f : URLRecord → URLRecord)
    (hne : url ≠ u) (hf : ∀ x, x.url = url → (f x).url = x.url) :
    ∀ urls : List URLRecord,
      (updateFirst urls url f).find? (fun x => x.url == u) =
        urls.find? (fun x => x.url == u) := by
  intro urls
  induction urls with
  | nil => rfl
  | cons x rest ih =>
    by_cases hx : x.url = url
    · have hxu : (x.url == u) = false := by simp [hx, hne]
      have hfxu : ((f x).url == u) = false := by simp [hf x hx, hx, hne]
      rw [updateFirst, if_pos (by simp [hx]), List.find?_cons, hfxu, List.find?_cons, hxu]
    · rw [updateFirst, if_neg (by simp [hx]), List.find?_cons, List.find?_cons]
      cases hxu : (x.url == u)
      · simp only
        exact ih
      · rfl

theorem mem_updateFirst {urls : List URLRecord} {url : String} {f : URLRecord → URLRecord}
    {r : URLRecord} (h : r ∈ updateFirst urls url f) :
    r ∈ urls ∨ ∃ x ∈ urls, r = f x := by
  induction urls with
  | nil => simp [updateFirst] at h
  | cons x rest ih =>
    rw [updateFirst] at h
    by_cases hx : (x.url == url) = true
    · rw [if_pos hx] at h
      rcases List.mem_cons.mp h with h₁ | h₁
      · exact Or.inr ⟨x, List.mem_cons_self x rest, h₁⟩
      · exact Or.inl (List.mem_cons_of_mem x h₁)
    · rw [if_neg hx] at h
      rcases List.mem_cons.mp h with h₁ | h₁
      · exact Or.inl (h₁ ▸ List.mem_cons_self x rest)
      · rcases ih h₁ with h₂ | ⟨y, hy, hr⟩
        · exact Or.inl (List.mem_cons_of_mem x h₂)
        · exact Or.inr ⟨y, List.mem_cons_of_mem x hy, hr⟩

theorem getURL_updateURLErrors_self (db : DatabaseState) (url : String)
    (errors : List CSSError) (hp : Option String) (now : Nat) (r : URLRecord)
    (h : getURL db url = some r) :
    ∃ r₂, getURL (updateURLErrors db url errors hp now) url = some r₂
      ∧ r₂.analysisHistory =
          lastN 50 (r.analysisHistory ++ [stepSnapshot (errors, hp, now)]) := by
  rw [getURL] at h
  refine ⟨applyAnalysisUpdate errors hp now r, ?_, ?_⟩
  · rw [getURL, updateURLErrors, h]
    exact find?_updateFirst_self url (applyAnalysisUpdate errors hp now)
      (fun x _ => rfl) db.urls r h
  · show (if (r.analysisHistory ++ [stepSnapshot (errors, hp, now)]).length > 50
        then (r.analysisHistory ++ [stepSnapshot (errors, hp, now)]).drop
          ((r.analysisHistory ++ [stepSnapshot (errors, hp, now)]).length - 50)
        else r.analysisHistory ++ [stepSnapshot (errors, hp, now)]) = _
    rw [cap50_eq_lastN]

theorem updateURLErrors_capped (db : DatabaseState) (url : String)
    (errors : List CSSError) (hp : Option String) (now : Nat)
    (hc : historyCapped db) : historyCapped (updateURLErrors db url errors hp now) := by
  rw [updateURLErrors]
  cases hfind : db.urls.find? (fun u => u.url == url) with
  | none => exact hc
  | some x =>
    intro r hr
    simp only at hr
    rcases mem_updateFirst hr with h₁ | ⟨y, _, hr₂⟩
    · exact hc r h₁
    · rw [hr₂]
      show (if (y.analysisHistory ++ [stepSnapshot (errors, hp, now)]).length > 50
          then (y.analysisHistory ++ [stepSnapshot (errors, hp, now)]).drop
            ((y.analysisHistory ++ [stepSnapshot (errors, hp, now)]).length - 50)
          else y.analysisHistory ++ [stepSnapshot (errors, hp, now)]).length ≤ 50
      rw [cap50_eq_lastN, length_lastN]
      exact Nat.min_le_left _ _

theorem applyAnalyses_history (url : String) :
    ∀ (steps : List (List CSSError × Option String × Nat)) (db : DatabaseState)
      (r : URLRecord), getURL db url = some r → r.analysisHistory.length ≤ 50 →
      ∃ r₂, getURL (applyAnalyses db url steps) url = some r₂
        ∧ r₂.analysisHistory = lastN 50 (r.analysisHistory ++ steps.map stepSnapshot) := by
  intro steps
  induction steps with
  | nil =>
    intro db r h hlen
    refine ⟨r, h, ?_⟩
    rw [List.map_nil, List.append_nil, lastN_of_length_le 50 _ hlen]
  | cons step rest ih =>
    intro db r h hlen
    obtain ⟨r₂, h₂, hist₂⟩ :=
      getURL_updateURLErrors_self db url step.1 step.2.1 step.2.2 r h
    have hlen₂ : r₂.analysisHistory.length ≤ 50 := by
      rw [hist₂, length_lastN]
      exact Nat.min_le_left _ _
    obtain ⟨r₃, h₃, hist₃⟩ :=
      ih (updateURLErrors db url step.1 step.2.1 step.2.2) r₂ h₂ hlen₂
    refine ⟨r₃, h₃, ?_⟩
    rw [hist₃, hist₂, lastN_append_lastN]
    congr 1
    rw [List.map_cons, List.append_assoc]
    rfl

/-- C8: updateURLErrors appends the new snapshot and keeps only the 50 most
recent ones, so the at-most-50 invariant on analysisHistory is preserved by
updateURLErrors and by every other store operation (addOrUpdateURL as always
invoked, without an analysisHistory field, excludeURL, deleteURL, clearURLs);
after 60 sequential analyses of a URL that starts with an empty history, the
history holds exactly the 50 most recent snapshots in chronological order. -/
theorem analysisHistory_bounded :
    (∀ db url errors hp now, historyCapped db →
        historyCapped (updateURLErrors db url errors hp now))
    ∧ (∀ env db p now, p.analysisHistory = none → historyCapped db →
        historyCapped (addOrUpdateURL env db p now).1)
    ∧ (∀ db url excluded, historyCapped db → historyCapped (excludeURL db url excluded))
    ∧ (∀ db url, historyCapped db → historyCapped (deleteURL db url))
    ∧ (∀ db, historyCapped db → historyCapped (clearURLs db))
    ∧ (∀ db url r steps, getURL db url = some r → r.analysisHistory = [] →
        steps.length = 60 →
        ∃ r₂, getURL (applyAnalyses db url steps) url = some r₂
          ∧ r₂.analysisHistory.length = 50
          ∧ r₂.analysisHistory = (steps.map stepSnapshot).drop 10) := by
  refine ⟨updateURLErrors_capped, ?_, ?_, ?_, ?_, ?_⟩
  · intro env db p now hnone hc
    rw [addOrUpdateURL]
    cases hfind : db.urls.find? (fun u => u.url == p.url) with
    | some existing =>
      intro r hr
      simp only at hr
      rcases mem_updateFirst hr with h₁ | ⟨y, _, hr₂⟩
      · exact hc r h₁
      · rw [hr₂]
        show (applyUpsert existing p now).analysisHistory.length ≤ 50
        rw [applyUpsert]
        simp only [hnone, Option.getD_none, Option.getD]
        exact hc existing (List.mem_of_find?_eq_some hfind)
    | none =>
      intro r hr
      simp only at hr
      rcases List.mem_append.mp hr with h₁ | h₁
      · exact hc r h₁
      · rw [List.mem_singleton.mp h₁]
        simp [newURLRecord, hnone]
  · intro db url excluded hc
    rw [excludeURL]
    cases hfind : db.urls.find? (fun u => u.url == url) with
    | none => exact hc
    | some x =>
      intro r hr
      simp only at hr
      rcases mem_updateFirst hr with h₁ | ⟨y, hy, hr₂⟩
      · exact hc r h₁
      · rw [hr₂]
        exact hc y hy
  · intro db url hc r hr
    exact hc r (List.mem_filter.mp hr).1
  · intro db hc r hr
    simp [clearURLs] at hr
  · intro db url r steps h hempty hlen
    obtain ⟨r₂, h₂, hist₂⟩ :=
      applyAnalyses_history url steps db r h (by rw [hempty]; simp)
    have hmaplen : (steps.map stepSnapshot).length = 60 := by
      rw [List.length_map, hlen]
    rw [hempty, List.nil_append] at hist₂
    refine ⟨r₂, h₂, ?_, ?_⟩
    · rw [hist₂, length_lastN, hmaplen]
      decide
    · rw [hist₂, lastN_eq_drop, hmaplen]

/-- Witness for analysisHistory_bounded: 60 concrete empty-error analyses of
one URL leave a history of length exactly 50. -/
theorem analysisHistory_bounded_witness :
    ∃ r₂, getURL (applyAnalyses (oneRecordDB (plainRecord "https://a")) "https://a"
          (List.replicate 60 ([], none, 0))) "https://a" = some r₂
      ∧ r₂.analysisHistory.length = 50
      ∧ r₂.analysisHistory =
          ((List.replicate 60 ([], none, 0)).map stepSnapshot).drop 10 :=
  analysisHistory_bounded.2.2.2.2.2 (oneRecordDB (plainRecord "https://a")) "https://a"
    (plainRecord "https://a") (List.replicate 60 ([], none, 0)) (by rfl) (by rfl)
    (by simp)

theorem addOrUpdateURL_found (env : ScanEnv) (db : DatabaseState) (p : URLUpsert)
    (now : Nat) (existing : URLRecord)
    (hfind : db.urls.find? (fun u => u.url == p.url) = some existing) :
    addOrUpdateURL env db p now =
      ({ db with urls := updateFirst db.urls p.url (fun _ => applyUpsert existing p now) },
       applyUpsert existing p now) := by
  rw [addOrUpdateURL, hfind]

theorem addOrUpdateURL_new (env : ScanEnv) (db : DatabaseState) (p : URLUpsert)
    (now : Nat) (hfind : db.urls.find? (fun u => u.url == p.url) = none) :
    addOrUpdateURL env db p now =
      ({ db with urls := db.urls ++ [newURLRecord env p now] }, newURLRecord env p now) := by
  rw [addOrUpdateURL, hfind]

theorem updateURLErrors_found (db : DatabaseState) (url : String) (errors : List CSSError)
    (hp : Option String) (now : Nat) (x : URLRecord)
    (hfind : db.urls.find? (fun u => u.url == url) = some x) :
    updateURLErrors db url errors hp now =
      { db with urls := updateFirst db.urls url (applyAnalysisUpdate errors hp now) } := by
  rw [updateURLErrors, hfind]

theorem getURL_addOrUpdateURL_ne (env : ScanEnv) (db : DatabaseState) (p : URLUpsert)
    (now : Nat) (u : String) (hne : p.url ≠ u) :
    getURL (addOrUpdateURL env db p now).1 u = getURL db u := by
  cases hfind : db.urls.find? (fun x => x.url == p.url) with
  | some existing =>
    rw [addOrUpdateURL_found env db p now existing hfind, getURL, getURL]
    exact find?_updateFirst_ne p.url u _ hne (fun x hx => hx.symm) db.urls
  | none =>
    rw [addOrUpdateURL_new env db p now hfind, getURL, getURL]
    show List.find? (fun x => x.url == u) (db.urls ++ [newURLRecord env p now]) = _
    rw [List.find?_append]
    have hb : ((newURLRecord env p now).url == u) = false := by
      simp only [newURLRecord, beq_eq_false_iff_ne, ne_eq]
      exact hne
    have hnone : List.find? (fun x => x.url == u) [newURLRecord env p now] = none := by
      rw [List.find?_cons, hb]
      rfl
    rw [hnone, Option.or_none]

theorem getURL_updateURLErrors_ne (db : DatabaseState) (url : String)
    (errors : List CSSError) (hp : Option String) (now : Nat) (u : String)
    (hne : url ≠ u) :
    getURL (updateURLErrors db url errors hp now) u = getURL db u := by
  cases hfind : db.urls.find? (fun x => x.url == url) with
  | none =>
    rw [updateURLErrors, hfind]
  | some x =>
    rw [updateURLErrors_found db url errors hp now x hfind, getURL, getURL]
    show List.find? (fun r => r.url == u)
        (updateFirst db.urls url (applyAnalysisUpdate errors hp now)) =
      List.find? (fun r => r.url == u) db.urls
    exact find?_updateFirst_ne url u (applyAnalysisUpdate errors hp now) hne
      (fun y hy => rfl) db.urls

theorem scanLoop_skips_excluded (env : ScanEnv) (total : Nat) (u : String) :
    ∀ (urls : List String) (db : DatabaseState) (scanned totalErrors : Nat)
      (r : URLRecord), getURL db u = some r → r.excluded = true →
      u ∉ (scanLoop env total db scanned totalErrors urls).fetched
      ∧ ∀ ev ∈ (scanLoop env total db scanned totalErrors urls).events,
          eventMentions u ev = false := by
  intro urls
  induction urls with
  | nil =>
    intro db scanned totalErrors r h hex
    refine ⟨?_, ?_⟩
    · simp [scanLoop]
    · intro ev hev
      simp [scanLoop] at hev
  | cons url rest ih =>
    intro db scanned totalErrors r h hex
    by_cases hexc : (match getURL db url with
        | some r₀ => r₀.excluded
        | none => false) = true
    · have := ih db scanned totalErrors r h hex
      simpa [scanLoop, hexc] using this
    · have hne : url ≠ u := by
        intro hequ
        apply hexc
        rw [hequ, h]
        exact hex
      have hexf : (match getURL db url with
          | some r₀ => r₀.excluded
          | none => false) = false := by
        cases hb : (match getURL db url with
            | some r₀ => r₀.excluded
            | none => false)
        · rfl
        · exact absurd hb hexc
      cases hf : env.fetch url with
      | error e =>
        refine ⟨?_, ?_⟩
        · show u ∉ (scanLoop env total db scanned totalErrors (url :: rest)).fetched
          simp only [scanLoop, hexf, Bool.false_eq_true, if_false, hf]
          simp only [List.mem_singleton]
          exact fun hq => hne hq.symm
        · intro ev hev
          simp only [scanLoop, hexf, Bool.false_eq_true, if_false, hf] at hev
          simp only [List.mem_singleton] at hev
          rw [hev]
          simp only [eventMentions, beq_eq_false_iff_ne, ne_eq]
          exact hne
      | ok page =>
        have hdb : getURL (updateURLErrors (addOrUpdateURL env db
            { url := url
              status := some page.status
              errors := some (analyze env page).errors
              errorCount := some (analyze env page).errors.length
              healthScore := some (analyze env page).summary.healthScore } env.now).1
            url (analyze env page).errors page.harPath env.now) u = some r := by
          rw [getURL_updateURLErrors_ne _ _ _ _ _ _ hne,
            getURL_addOrUpdateURL_ne _ _ _ _ _ hne]
          exact h
        obtain ⟨ihf, ihe⟩ := ih _ (scanned + 1)
          (totalErrors + (analyze env page).errors.length) r hdb hex
        refine ⟨?_, ?_⟩
        · show u ∉ (scanLoop env total db scanned totalErrors (url :: rest)).fetched
          simp only [scanLoop, hexf, Bool.false_eq_true, if_false, hf]
          intro hmem
          rcases List.mem_cons.mp hmem with h₁ | h₁
          · exact hne h₁.symm
          · exact ihf h₁
        · intro ev hev
          simp only [scanLoop, hexf, Bool.false_eq_true, if_false, hf] at hev
          rcases List.mem_cons.mp hev with h₁ | h₁
          · rw [h₁]
            simp only [eventMentions, beq_eq_false_iff_ne, ne_eq]
            exact hne
          · rcases List.mem_cons.mp h₁ with h₂ | h₂
            · rw [h₂]
              simp only [eventMentions, beq_eq_false_iff_ne, ne_eq]
              exact hne
            · exact ihe ev h₂

theorem wrapLoop_skips (env : ScanEnv) (out : LoopOut) (u : String)
    (hfetch : u ∉ out.fetched)
    (hevents : ∀ ev ∈ out.events, eventMentions u ev = false) :
    u ∉ (wrapLoop env out).fetched
    ∧ ∀ ev ∈ (wrapLoop env out).events, eventMentions u ev = false := by
  rw [wrapLoop]
  cases hres : out.result with
  | error e =>
    refine ⟨by simpa [finalizeRun] using hfetch, ?_⟩
    intro ev hev
    simp only [finalizeRun, List.mem_append, List.mem_cons, List.mem_singleton,
      List.not_mem_nil, or_false] at hev
    rcases hev with (hev | hev) | hev
    · rw [hev]; rfl
    · exact hevents ev hev
    · rw [hev]; rfl
  | ok a =>
    refine ⟨by simpa [finalizeRun, finishRun] using hfetch, ?_⟩
    intro ev hev
    simp only [finalizeRun, finishRun, List.mem_append, List.mem_cons,
      List.mem_singleton, List.not_mem_nil, or_false] at hev
    rcases hev with hev | hev | hev
    · rw [hev]; rfl
    · exact hevents ev hev
    · rw [hev]; rfl

/-- C9: a URL whose stored record is excluded when the run starts is never
fetched by scan() or scanSpecificURLs, and no scan:progress or page:analyzed
event is emitted for it (the loop's own store writes never change any
record's excluded flag, so the record is still excluded when the URL is
reached). -/
theorem excluded_url_never_processed (env : ScanEnv) (cfg : AuditConfig)
    (urls : List String) (s : OrchState) (u : String) (r : URLRecord)
    (hidle : s.isScanning = false) (hr : getURL s.db u = some r)
    (hex : r.excluded = true) :
    (u ∉ (scan env cfg s).fetched
      ∧ ∀ ev ∈ (scan env cfg s).events, eventMentions u ev = false)
    ∧ (u ∉ (scanSpecificURLs env urls s).fetched
      ∧ ∀ ev ∈ (scanSpecificURLs env urls s).events, eventMentions u ev = false) := by
  constructor
  · simp only [scan, hidle, Bool.false_eq_true, if_false]
    repeat' split
    all_goals first
      | (refine ⟨by simp [finalizeRun], ?_⟩
         intro ev hev
         simp only [finalizeRun, List.mem_append, List.mem_cons, List.mem_singleton,
           List.not_mem_nil, or_false] at hev
         rcases hev with hev | hev <;> (rw [hev]; rfl))
      | exact wrapLoop_skips env _ u
          (scanLoop_skips_excluded env _ u _ s.db 0 0 r hr hex).1
          (scanLoop_skips_excluded env _ u _ s.db 0 0 r hr hex).2
  · simp only [scanSpecificURLs, hidle, Bool.false_eq_true, if_false]
    exact wrapLoop_skips env _ u
      (scanLoop_skips_excluded env urls.length u urls s.db 0 0 r hr hex).1
      (scanLoop_skips_excluded env urls.length u urls s.db 0 0 r hr hex).2

/-- Witness for excluded_url_never_processed: scanning the concrete list
containing only an excluded URL fetches nothing and emits no progress event
for it. -/
theorem excluded_url_never_processed_witness :
    "https://x" ∉ (scanSpecificURLs sampleEnv ["https://x"]
        { isScanning := false, crawlerOpen := false,
          db := oneRecordDB (excludedRecord "https://x") }).fetched :=
  ((excluded_url_never_processed sampleEnv { baseUrl := "", maxPages := none }
      ["https://x"]
      { isScanning := false, crawlerOpen := false,
        db := oneRecordDB (excludedRecord "https://x") }
      "https://x" (excludedRecord "https://x") rfl (by decide) rfl).2).1

theorem lookupVM_addToValueMap (value name : String) :
    ∀ (m : List (String × List String)) (v : String),
      lookupVM (addToValueMap m value name) v =
        if v = value then some (((lookupVM m value).getD []) ++ [name])
        else lookupVM m v := by
  intro m
  induction m with
  | nil =>
    intro v
    by_cases hv : v = value
    · subst hv
      simp [addToValueMap, lookupVM]
    · have hv' : value ≠ v := fun h => hv h.symm
      simp [addToValueMap, lookupVM, hv, hv']
  | cons head rest ih =>
    obtain ⟨v', ns⟩ := head
    intro v
    by_cases h1 : v' = value
    · subst h1
      simp only [addToValueMap, if_pos rfl]
      by_cases hv : v = v'
      · subst hv
        simp [lookupVM]
      · have hv' : v' ≠ v := fun h => hv h.symm
        simp [lookupVM, hv, hv']
    · simp only [addToValueMap, if_neg h1]
      by_cases hv : v' = v
      · subst hv
        simp [lookupVM, h1]
      · simp only [lookupVM, if_neg hv]
        rw [ih v]
        by_cases h2 : v = value
        · subst h2
          simp [lookupVM, hv, if_neg h1]
        · simp [h2]

theorem lookupVM_buildValueMap_aux (v : String) (hv : v ≠ "") :
    ∀ (vars : List CSSVariable) (m : List (String × List String)),
      lookupVM (vars.foldl
        (fun m x => if x.value ≠ "" then addToValueMap m x.value x.name else m) m) v =
        match lookupVM m v with
        | some ns => some (ns ++ namesWithValue vars v)
        | none =>
            if namesWithValue vars v = [] then none
            else some (namesWithValue vars v) := by
  intro vars
  induction vars with
  | nil =>
    intro m
    simp only [List.foldl_nil, namesWithValue, List.filter_nil, List.map_nil]
    cases lookupVM m v <;> simp
  | cons x rest ih =>
    intro m
    rw [List.foldl_cons]
    by_cases hxv : x.value = v
    · have hxe : x.value ≠ "" := by rw [hxv]; exact hv
      rw [if_pos hxe, ih (addToValueMap m x.value x.name),
        lookupVM_addToValueMap x.value x.name m v, if_pos hxv.symm]
      have hnames : namesWithValue (x :: rest) v = x.name :: namesWithValue rest v := by
        simp [namesWithValue, List.filter_cons, hxv]
      rw [hnames, hxv]
      cases hm : lookupVM m v with
      | some ns => simp
      | none => simp
    · have hnames : namesWithValue (x :: rest) v = namesWithValue rest v := by
        simp [namesWithValue, List.filter_cons, hxv]
      by_cases hxe : x.value = ""
      · rw [if_neg (by simp [hxe]), ih m, hnames]
      · rw [if_pos hxe, ih (addToValueMap m x.value x.name),
          lookupVM_addToValueMap x.value x.name m v,
          if_neg (fun h => hxv h.symm), hnames]

theorem lookupVM_buildValueMap_empty :
    ∀ (vars : List CSSVariable) (m : List (String × List String)),
      lookupVM (vars.foldl
        (fun m x => if x.value ≠ "" then addToValueMap m x.value x.name else m) m) "" =
      lookupVM m "" := by
  intro vars
  induction vars with
  | nil => intro m; rfl
  | cons x rest ih =>
    intro m
    rw [List.foldl_cons]
    by_cases hx : x.value = ""
    · rw [if_neg (by simp [hx])]
      exact ih m
    · rw [if_pos hx, ih (addToValueMap m x.value x.name),
        lookupVM_addToValueMap x.value x.name m "",
        if_neg (fun h => hx h.symm)]

theorem keys_addToValueMap (value name : String) :
    ∀ m : List (String × List String),
      (addToValueMap m value name).map Prod.fst =
        if value ∈ m.map Prod.fst then m.map Prod.fst
        else m.map Prod.fst ++ [value] := by
  intro m
  induction m with
  | nil => simp [addToValueMap]
  | cons head rest ih =>
    obtain ⟨v', ns⟩ := head
    by_cases h : v' = value
    · subst h
      simp [addToValueMap]
    · have h' : value ≠ v' := fun hh => h hh.symm
      simp only [addToValueMap, if_neg h, List.map_cons, ih]
      by_cases hmem : value ∈ rest.map Prod.fst
      · simp [hmem, h']
      · simp [hmem, h']

theorem nodup_keys_addToValueMap (value name : String)
    (m : List (String × List String)) (h : (m.map Prod.fst).Nodup) :
    ((addToValueMap m value name).map Prod.fst).Nodup := by
  rw [keys_addToValueMap]
  by_cases hmem : value ∈ m.map Prod.fst
  · rwa [if_pos hmem]
  · rw [if_neg hmem]
    simp [List.nodup_append, h, hmem]

theorem buildValueMap_keys_nodup (vars : List CSSVariable) :
    ((buildValueMap vars).map Prod.fst).Nodup := by
  have key : ∀ (l : List CSSVariable) (m : List (String × List String)),
      (m.map Prod.fst).Nodup →
      ((l.foldl
        (fun m x => if x.value ≠ "" then addToValueMap m x.value x.name else m) m).map
          Prod.fst).Nodup := by
    intro l
    induction l with
    | nil => intro m h; exact h
    | cons x rest ih =>
      intro m h
      rw [List.foldl_cons]
      by_cases hx : x.value = ""
      · rw [if_neg (by simp [hx])]
        exact ih m h
      · rw [if_pos hx]
        exact ih _ (nodup_keys_addToValueMap x.value x.name m h)
  exact key vars [] (by simp)

theorem mem_iff_lookupVM :
    ∀ (m : List (String × List String)), (m.map Prod.fst).Nodup →
      ∀ (v : String) (ns : List String), (v, ns) ∈ m ↔ lookupVM m v = some ns := by
  intro m
  induction m with
  | nil =>
    intro _ v ns
    simp [lookupVM]
  | cons head rest ih =>
    obtain ⟨v', ns'⟩ := head
    intro hnodup v ns
    simp only [List.map_cons, List.nodup_cons] at hnodup
    obtain ⟨hnotin, hrest⟩ := hnodup
    by_cases hv : v' = v
    · subst hv
      constructor
      · intro h
        rcases List.mem_cons.mp h with h₁ | h₁
        · have h2 := ((Prod.mk.injEq _ _ _ _).mp h₁).2
          simp [lookupVM, h2]
        · exact absurd (List.mem_map_of_mem Prod.fst h₁) hnotin
      · intro h
        have hsome : lookupVM ((v', ns') :: rest) v' = some ns' := by simp [lookupVM]
        rw [hsome] at h
        injection h with h2
        exact List.mem_cons.mpr (Or.inl (by rw [h2]))
    · simp only [lookupVM, if_neg hv, List.mem_cons]
      rw [← ih hrest v ns]
      constructor
      · rintro (h | h)
        · exact absurd ((Prod.mk.injEq _ _ _ _).mp h).1.symm hv
        · exact h
      · exact Or.inr

theorem lookupVM_buildValueMap (vars : List CSSVariable) (v : String) (ns : List String) :
    lookupVM (buildValueMap vars) v = some ns ↔
      v ≠ "" ∧ ns = namesWithValue vars v ∧ ns ≠ [] := by
  by_cases hv : v = ""
  · subst hv
    rw [buildValueMap, lookupVM_buildValueMap_empty vars []]
    simp [lookupVM]
  · rw [buildValueMap, lookupVM_buildValueMap_aux v hv vars []]
    show (if namesWithValue vars v = [] then none
        else some (namesWithValue vars v)) = some ns ↔ _
    by_cases hn : namesWithValue vars v = []
    · rw [if_pos hn]
      constructor
      · intro h
        exact absurd h (by simp)
      · rintro ⟨-, hns, hne⟩
        exact absurd (hns.trans hn) hne
    · rw [if_neg hn]
      constructor
      · intro h
        injection h with h2
        exact ⟨hv, h2.symm, fun hh => hn (h2.trans hh)⟩
      · rintro ⟨-, hns, -⟩
        rw [hns]

theorem mem_duplicates_iff (vars : List CSSVariable) (v : String) (ns : List String) :
    ({ value := v, names := ns } : DuplicateVariable) ∈
      ((buildValueMap vars).filter (fun p => p.2.length > 1)).map
        (fun p => { value := p.1, names := p.2 }) ↔
      v ≠ "" ∧ 2 ≤ ns.length ∧ ns = namesWithValue vars v := by
  constructor
  · intro h
    rcases List.mem_map.mp h with ⟨p, hp, hpe⟩
    have h1 : p.1 = v := congrArg DuplicateVariable.value hpe
    have h2 : p.2 = ns := congrArg DuplicateVariable.names hpe
    obtain ⟨hpmem, hplen⟩ := List.mem_filter.mp hp
    have hlen : 1 < ns.length := by
      have := of_decide_eq_true hplen
      rwa [h2] at this
    have hmem : (v, ns) ∈ buildValueMap vars := by
      have hpe₂ : p = (v, ns) := Prod.ext h1 h2
      rwa [hpe₂] at hpmem
    have hlook := (mem_iff_lookupVM _ (buildValueMap_keys_nodup vars) v ns).mp hmem
    obtain ⟨hv, hns, -⟩ := (lookupVM_buildValueMap vars v ns).mp hlook
    exact ⟨hv, hlen, hns⟩
  · rintro ⟨hv, hlen, hns⟩
    have hne : ns ≠ [] := by
      intro h
      rw [h] at hlen
      simp at hlen
    have hlook : lookupVM (buildValueMap vars) v = some ns :=
      (lookupVM_buildValueMap vars v ns).mpr ⟨hv, hns, hne⟩
    have hmem : (v, ns) ∈ buildValueMap vars :=
      (mem_iff_lookupVM _ (buildValueMap_keys_nodup vars) v ns).mpr hlook
    exact List.mem_map.mpr
      ⟨(v, ns), List.mem_filter.mpr ⟨hmem, decide_eq_true hlen⟩, rfl⟩

/-- C5 counterexample: in the stylesheet "--a: ;--b: ;" the two distinct
declared names --a and --b both have trimmed first-textual-match value ""
(the captured group is the single space, which trims to the empty string),
so they share an identical trimmed value, yet no duplicate group is emitted:
the code skips falsy (empty) value strings before grouping. -/
theorem duplicates_counterexample :
    (analyzeVariables "--a: ;--b: ;").declared =
      [{ name := "--a", value := "", usageCount := 0 },
       { name := "--b", value := "", usageCount := 0 }]
    ∧ (analyzeVariables "--a: ;--b: ;").duplicates = [] := by decide

/-- C5 amended: analyzeVariables groups declared names by their trimmed
first-textual-match value string and emits a duplicate group exactly when at
least 2 distinct declared names share an identical NONEMPTY trimmed value
(names whose value string is empty are excluded from grouping); for declared
values --a:1px, --b:1px, --c:2px the output is exactly one group with value
"1px" and names [--a, --b], and --c appears in no group. -/
theorem duplicates_grouping :
    (∀ (cssText : String) (v : String) (ns : List String),
      ({ value := v, names := ns } : DuplicateVariable) ∈
          (analyzeVariables cssText).duplicates ↔
        v ≠ "" ∧ 2 ≤ ns.length
          ∧ ns = namesWithValue (analyzeVariables cssText).declared v)
    ∧ (analyzeVariables "--a:1px; --b:1px; --c:2px;").duplicates =
        [{ value := "1px", names := ["--a", "--b"] }]
    ∧ ∀ g ∈ (analyzeVariables "--a:1px; --b:1px; --c:2px;").duplicates,
        "--c" ∉ g.names := by
  refine ⟨?_, by decide, by decide⟩
  intro cssText v ns
  exact mem_duplicates_iff (analyzeVariables cssText).declared v ns

/-- Witness for duplicates_grouping: the group for value "1px" in the
concrete stylesheet satisfies the characterization in both directions. -/
theorem duplicates_grouping_witness :
    ({ value := "1px", names := ["--a", "--b"] } : DuplicateVariable) ∈
      (analyzeVariables "--a:1px; --b:1px; --c:2px;").duplicates :=
  (duplicates_grouping.1 "--a:1px; --b:1px; --c:2px;" "1px" ["--a", "--b"]).mpr
    ⟨by decide, by decide, by decide⟩

end CSSAudit
